import Mathlib

/-!
Shallow embedding of the AlphaWEEX supervisor/safety core and proofs about it.

Conventions used throughout:
* Python floats are modelled as exact rationals (`ℚ`); `datetime` values are
  modelled as rational timestamps in seconds.
* Python strings are modelled as Lean `String`; case-insensitive substring
  checks (`kw in text.lower()`) use `List Char` infix tests after mapping
  `Char.toLower` over the text.
* Stateful classes become structures with explicitly passed state and an
  explicit `now` argument wherever the source calls `datetime.now()`.
* `Optional`/nullable values become `Option`.
-/

namespace AlphaWeex

/-- Clamp `x` into `[lo, hi]` (used only in spec-side reference definitions). -/
def clamp (x lo hi : ℚ) : ℚ := max lo (min x hi)

/-- Python 3 `round` to an integer: round-half-to-even (banker's rounding). -/
def pyRoundInt (x : ℚ) : ℤ :=
  if x - ⌊x⌋ < 1/2 then ⌊x⌋
  else if 1/2 < x - ⌊x⌋ then ⌊x⌋ + 1
  else if ⌊x⌋ % 2 = 0 then ⌊x⌋ else ⌊x⌋ + 1

/-- Python `round(x, 3)`. -/
def round3 (x : ℚ) : ℚ := (pyRoundInt (x * 1000) : ℚ) / 1000

/-- Python `round(x, 2)`. -/
def round2 (x : ℚ) : ℚ := (pyRoundInt (x * 100) : ℚ) / 100

theorem pyRoundInt_near (x : ℚ) : |(pyRoundInt x : ℚ) - x| ≤ 1/2 := by
  unfold pyRoundInt
  have hfl : (⌊x⌋ : ℚ) ≤ x := Int.floor_le x
  have hfu : x - 1 < (⌊x⌋ : ℚ) := by
    have := Int.lt_floor_add_one x; linarith
  split
  · rename_i h
    rw [abs_le]; constructor <;> [linarith; linarith]
  · rename_i h
    push_neg at h
    split
    · rename_i h2
      rw [abs_le]; push_cast; constructor <;> [linarith; linarith]
    · rename_i h2
      push_neg at h2
      have heq : x - (⌊x⌋ : ℚ) = 1/2 := le_antisymm h2 h
      split
      · rw [abs_le]; constructor <;> [linarith; linarith]
      · rw [abs_le]; push_cast; constructor <;> [linarith; linarith]

theorem pyRoundInt_le_of_le (x : ℚ) (B : ℤ) (h : x ≤ B) : pyRoundInt x ≤ B := by
  have h1 : |(pyRoundInt x : ℚ) - x| ≤ 1/2 := pyRoundInt_near x
  rw [abs_le] at h1
  have h2 : (pyRoundInt x : ℚ) ≤ (B : ℚ) + 1/2 := by linarith
  have h3 : (pyRoundInt x : ℚ) < (B : ℚ) + 1 := by linarith
  exact_mod_cast Int.lt_add_one_iff.mp (by exact_mod_cast h3)

theorem le_pyRoundInt_of_le (x : ℚ) (B : ℤ) (h : (B : ℚ) ≤ x) : B ≤ pyRoundInt x := by
  have h1 : |(pyRoundInt x : ℚ) - x| ≤ 1/2 := pyRoundInt_near x
  rw [abs_le] at h1
  have h3 : (B : ℚ) - 1 < (pyRoundInt x : ℚ) := by linarith
  have h4 : (B - 1 : ℤ) < pyRoundInt x := by exact_mod_cast (by push_cast; linarith : ((B - 1 : ℤ) : ℚ) < (pyRoundInt x : ℚ))
  omega

theorem round3_near (x : ℚ) : |round3 x - x| ≤ 1/2000 := by
  unfold round3
  have h := pyRoundInt_near (x * 1000)
  rw [abs_le] at h ⊢
  constructor <;> [linarith; linarith]

theorem round3_le_one (x : ℚ) (h : x ≤ 1) : round3 x ≤ 1 := by
  unfold round3
  have := pyRoundInt_le_of_le (x * 1000) 1000 (by push_cast; linarith)
  have : ((pyRoundInt (x * 1000) : ℚ)) ≤ 1000 := by exact_mod_cast this
  linarith

theorem neg_one_le_round3 (x : ℚ) (h : -1 ≤ x) : -1 ≤ round3 x := by
  unfold round3
  have h0 : ((-1000 : ℤ) : ℚ) ≤ x * 1000 := by push_cast; linarith
  have := le_pyRoundInt_of_le (x * 1000) (-1000) h0
  have : ((-1000 : ℤ) : ℚ) ≤ (pyRoundInt (x * 1000) : ℚ) := by exact_mod_cast this
  push_cast at this
  linarith

/-!
## Guardrails (src/guardrails.py)

Timestamps are rational seconds; one hour is 3600 seconds. `equity_history`
entries are `(timestamp, equity)` pairs, appended by `update_equity`.
-/

structure Guardrails where
  initial_equity : ℚ
  current_equity : ℚ
  kill_switch_threshold : ℚ
  stability_lock_hours : ℚ
  last_evolution_time : Option ℚ
  equity_history : List (ℚ × ℚ)
  kill_switch_triggered : Bool
deriving Repr

/-- `Guardrails._check_kill_switch`, with `datetime.now()` passed as `now`. -/
def checkKillSwitch (g : Guardrails) (now : ℚ) : Guardrails :=
  if g.kill_switch_triggered then g
  else
    let recent_history := g.equity_history.filter (fun h => now - 3600 ≤ h.1)
    match recent_history with
    | [] => g
    | h0 :: _ =>
      let equity_1h_ago := h0.2
      let equity_change := (g.current_equity - equity_1h_ago) / equity_1h_ago
      if equity_change ≤ -g.kill_switch_threshold then
        { g with kill_switch_triggered := true }
      else g

/-- `Guardrails.update_equity`: set current equity, append to history, check. -/
def updateEquity (g : Guardrails) (now : ℚ) (new_equity : ℚ) : Guardrails :=
  checkKillSwitch
    { g with
      current_equity := new_equity
      equity_history := g.equity_history ++ [(now, new_equity)] }
    now

/-- `Guardrails.is_kill_switch_active`. -/
def isKillSwitchActive (g : Guardrails) : Bool := g.kill_switch_triggered

/-- `Guardrails.can_evolve` (12h stability lock), with `now` explicit. -/
def canEvolve (g : Guardrails) (now : ℚ) : Bool :=
  match g.last_evolution_time with
  | none => true
  | some t => !decide ((now - t) / 3600 < g.stability_lock_hours)

/-- `Guardrails.mark_evolution`. -/
def markEvolution (g : Guardrails) (now : ℚ) : Guardrails :=
  { g with last_evolution_time := some now }

/-- The state-mutating Guardrails operations (the remaining methods are pure). -/
inductive GuardrailsOp where
  | updateEq (now new_equity : ℚ)
  | markEvo (now : ℚ)
deriving Repr

def applyGuardrailsOp (g : Guardrails) : GuardrailsOp → Guardrails
  | .updateEq now new_equity => updateEquity g now new_equity
  | .markEvo now => markEvolution g now

def applyGuardrailsOps (g : Guardrails) (ops : List GuardrailsOp) : Guardrails :=
  ops.foldl applyGuardrailsOp g

/-- The post-call one-hour window of the equity history (the history after the
append, restricted to timestamps within one hour of `now`). -/
def oneHourWindow (g : Guardrails) (now : ℚ) (new_equity : ℚ) : List (ℚ × ℚ) :=
  (g.equity_history ++ [(now, new_equity)]).filter (fun h => now - 3600 ≤ h.1)

theorem killSwitch_latched (g : Guardrails) (op : GuardrailsOp)
    (h : g.kill_switch_triggered = true) :
    (applyGuardrailsOp g op).kill_switch_triggered = true := by
  cases op with
  | updateEq now new_equity =>
    simp only [applyGuardrailsOp, updateEquity, checkKillSwitch, h, if_true]
  | markEvo now =>
    simpa [applyGuardrailsOp, markEvolution] using h

theorem killSwitch_latched_ops (g : Guardrails) (ops : List GuardrailsOp)
    (h : g.kill_switch_triggered = true) :
    (applyGuardrailsOps g ops).kill_switch_triggered = true := by
  induction ops generalizing g with
  | nil => exact h
  | cons op ops ih => exact ih _ (killSwitch_latched g op h)

theorem updateEquity_trigger_iff (g : Guardrails) (now new : ℚ)
    (hk : g.kill_switch_triggered = false) :
    (updateEquity g now new).kill_switch_triggered = true ↔
      (oneHourWindow g now new ≠ [] ∧
        (new - ((oneHourWindow g now new).headD (0, 0)).2) /
            ((oneHourWindow g now new).headD (0, 0)).2 ≤ -g.kill_switch_threshold) := by
  have hp : now - 3600 ≤ now := by linarith
  unfold updateEquity checkKillSwitch oneHourWindow
  simp only [hk, Bool.false_eq_true, if_false, List.filter_append, List.filter_cons,
    List.filter_nil, hp, decide_eq_true_eq, if_true]
  cases hR : g.equity_history.filter (fun h => decide (now - 3600 ≤ h.1)) with
  | nil =>
    simp only [List.nil_append, List.headD_cons]
    split <;> simp_all
  | cons r rs =>
    simp only [List.cons_append, List.headD_cons]
    split <;> simp_all

/-- C2: after every `update_equity(new)` call the kill-switch flag is true iff
it was already true, or the one-hour window of the (appended) equity history is
non-empty and `(new − e₀)/e₀ ≤ −kill_switch_threshold` for `e₀` the earliest
(first-recorded) entry of that window; the comparison is inclusive, an empty
window never triggers `_check_kill_switch`, and once latched the flag survives
every subsequent Guardrails operation. -/
theorem update_equity_kill_switch_spec (g : Guardrails) (now new : ℚ) :
    ((updateEquity g now new).kill_switch_triggered = true ↔
      g.kill_switch_triggered = true ∨
        (oneHourWindow g now new ≠ [] ∧
          (new - ((oneHourWindow g now new).headD (0, 0)).2) /
              ((oneHourWindow g now new).headD (0, 0)).2 ≤ -g.kill_switch_threshold)) ∧
    (∀ g' : Guardrails, ∀ now' : ℚ,
      g'.equity_history.filter (fun h => now' - 3600 ≤ h.1) = [] →
        (checkKillSwitch g' now').kill_switch_triggered = g'.kill_switch_triggered) ∧
    (∀ ops : List GuardrailsOp, g.kill_switch_triggered = true →
      (applyGuardrailsOps g ops).kill_switch_triggered = true) := by
  refine ⟨?_, ?_, killSwitch_latched_ops g⟩
  · by_cases hk : g.kill_switch_triggered
    · constructor
      · intro _; exact Or.inl hk
      · intro _
        unfold updateEquity checkKillSwitch
        simp [hk]
    · have hk' : g.kill_switch_triggered = false := by simpa using hk
      rw [updateEquity_trigger_iff g now new hk']
      simp [hk']
  · intro g' now' hempty
    unfold checkKillSwitch
    by_cases hk : g'.kill_switch_triggered
    · simp [hk]
    · simp only [hk, Bool.false_eq_true, if_false]
      rw [hempty]
      simpa using hk

/-- Witness for `update_equity_kill_switch_spec`: the spec's boundary scenario.
Threshold 3%, one history entry 59 minutes old at equity 1000; updating to 950
latches the kill-switch, and it stays latched across further updates. -/
theorem update_equity_kill_switch_spec_witness :
    (updateEquity
        { initial_equity := 1000, current_equity := 1000,
          kill_switch_threshold := 3/100, stability_lock_hours := 12,
          last_evolution_time := none,
          equity_history := [(-3540, 1000)], kill_switch_triggered := false }
        0 950).kill_switch_triggered = true ∧
    (applyGuardrailsOps
        { initial_equity := 1000, current_equity := 950,
          kill_switch_threshold := 3/100, stability_lock_hours := 12,
          last_evolution_time := none,
          equity_history := [(-3540, 1000), (0, 950)], kill_switch_triggered := true }
        [.updateEq 60 990, .markEvo 120]).kill_switch_triggered = true := by
  constructor
  · have hw : oneHourWindow
        { initial_equity := 1000, current_equity := 1000,
          kill_switch_threshold := 3/100, stability_lock_hours := 12,
          last_evolution_time := none,
          equity_history := [(-3540, 1000)], kill_switch_triggered := false }
        0 950 = [(-3540, 1000), (0, 950)] := by
      norm_num [oneHourWindow, List.filter]
    exact (update_equity_kill_switch_spec _ 0 950).1.mpr
      (Or.inr ⟨by rw [hw]; simp, by rw [hw]; norm_num⟩)
  · exact (update_equity_kill_switch_spec _ 60 990).2.2 _ rfl

/-!
## SharedState (src/data/shared_state.py) and Architect.get_adjusted_size
(src/architect.py)

Only the fields `get_adjusted_size` consults are modelled; the mutex and the
update timestamps have no bearing on the computed value.
-/

inductive RiskLevel where
  | NORMAL
  | HIGH
deriving Repr, DecidableEq

structure SharedState where
  global_risk_level : RiskLevel
  sentiment_multiplier : ℚ
  whale_dump_risk : Bool
deriving Repr

/-- `HIGH_RISK_REDUCTION = 0.5` (src/architect.py). -/
def HIGH_RISK_REDUCTION : ℚ := 1/2

/-- `Architect.get_adjusted_size`: base × sentiment, then ×0.5 on HIGH risk,
then ×0.7 on whale-dump risk. -/
def getAdjustedSize (st : SharedState) (base_size : ℚ) : ℚ :=
  let adjusted_size := base_size * st.sentiment_multiplier
  let adjusted_size :=
    if st.global_risk_level = RiskLevel.HIGH then adjusted_size * HIGH_RISK_REDUCTION
    else adjusted_size
  if st.whale_dump_risk then adjusted_size * (7/10) else adjusted_size

/-- C3: for every base size and fixed shared state, the adjusted size is
`base · m · (0.5 if risk = HIGH else 1) · (0.7 if whale_dump else 1)`; with
`m = 1`, risk NORMAL and no whale risk it equals the base, and with whale risk
alone base 100 yields 70. -/
theorem get_adjusted_size_spec (st : SharedState) (base_size : ℚ) :
    getAdjustedSize st base_size =
      base_size * st.sentiment_multiplier *
        (if st.global_risk_level = RiskLevel.HIGH then (1:ℚ)/2 else 1) *
        (if st.whale_dump_risk then (7:ℚ)/10 else 1) ∧
    (st.sentiment_multiplier = 1 → st.global_risk_level = RiskLevel.NORMAL →
      st.whale_dump_risk = false → getAdjustedSize st base_size = base_size) ∧
    (st.sentiment_multiplier = 1 → st.global_risk_level = RiskLevel.NORMAL →
      st.whale_dump_risk = true → base_size = 100 → getAdjustedSize st base_size = 70) := by
  unfold getAdjustedSize HIGH_RISK_REDUCTION
  refine ⟨?_, ?_, ?_⟩
  · cases hr : st.global_risk_level <;> cases hw : st.whale_dump_risk <;>
      simp [mul_assoc, mul_comm, mul_left_comm]
  · intro hm hr hw; simp [hm, hr, hw]
  · intro hm hr hw hb; simp [hm, hr, hw, hb]; norm_num

/-- Witness for `get_adjusted_size_spec`: the two concrete scenarios from the
spec, evaluated at explicit states. -/
theorem get_adjusted_size_spec_witness :
    getAdjustedSize ⟨RiskLevel.NORMAL, 1, false⟩ 100 = 100 ∧
    getAdjustedSize ⟨RiskLevel.NORMAL, 1, true⟩ 100 = 70 := by
  constructor
  · exact (get_adjusted_size_spec ⟨RiskLevel.NORMAL, 1, false⟩ 100).2.1 rfl rfl rfl
  · exact (get_adjusted_size_spec ⟨RiskLevel.NORMAL, 1, true⟩ 100).2.2 rfl rfl rfl rfl

/-!
## ReconciliationAuditor success scoring (src/agents/reconciliation_loop.py)
-/

/-- Lower-cased character sequence of a Python string (`s.lower()`). -/
def lowerChars (s : String) : List Char := s.toList.map Char.toLower

/-- Python `kw in text` substring test on already-lower-cased text. -/
def containsSub (text : List Char) (kw : String) : Bool := decide (kw.toList <:+: text)

/-- A row of the `predictions` table (src/agents/reconciliation_loop.py schema).
Nullable columns are `Option`; `audited` defaults to 0 (false) on insert. -/
structure PredictionRow where
  id : ℕ
  timestamp : ℚ
  predicted_bias : String
  predicted_outcome : Option String
  confidence : ℚ
  market_regime : String
  archetype : String
  signal : String
  price_at_prediction : ℚ
  actual_price_1h : Option ℚ
  actual_price_4h : Option ℚ
  actual_price_12h : Option ℚ
  success_score_1h : Option ℚ
  success_score_4h : Option ℚ
  success_score_12h : Option ℚ
  audited : Bool
deriving Repr, DecidableEq

/-- The signal-accuracy part of `_calculate_success_score` (the first
`if signal == 'BUY' / elif signal == 'SELL'` block, starting from `score = 0.0`). -/
def signalScoreRaw (signal : String) (price_change_pct : ℚ) : ℚ :=
  if signal = "BUY" then
    if 0 < price_change_pct then min (price_change_pct / 5) 1
    else max (price_change_pct / 5) (-1)
  else if signal = "SELL" then
    if price_change_pct < 0 then min (|price_change_pct| / 5) 1
    else max (-price_change_pct / 5) (-1)
  else 0

/-- The outcome-pattern block of `_calculate_success_score`
(reversal/trap confirmation, else mean-reversion bonus). -/
def patternBonus (outcome_lower : List Char) (signal : String)
    (price_change_pct score : ℚ) : ℚ :=
  if containsSub outcome_lower "reversal" || containsSub outcome_lower "trap" then
    if signal = "SELL" ∧ price_change_pct < -1 then max score (8/10)
    else if signal = "BUY" ∧ 1 < price_change_pct then max score (8/10)
    else score
  else if containsSub outcome_lower "mean reversion" then
    if signal = "BUY" ∧ 0 < price_change_pct then max score (7/10)
    else if signal = "SELL" ∧ price_change_pct < 0 then max score (7/10)
    else score
  else score

/-- `ReconciliationAuditor._calculate_success_score`. -/
def calculateSuccessScore (pred : PredictionRow) (actual_price : ℚ) : ℚ :=
  let predicted_price := pred.price_at_prediction
  let predicted_outcome := pred.predicted_outcome.getD ""
  let price_change_pct := (actual_price - predicted_price) / predicted_price * 100
  let score := signalScoreRaw pred.signal price_change_pct
  let score := patternBonus (lowerChars predicted_outcome) pred.signal price_change_pct score
  round3 (score * pred.confidence)

/-- Reference scoring definition following the spec's words: `BUY` scores
`clamp(Δ%/5, −1, +1)`, `SELL` scores `clamp(−Δ%/5, −1, +1)`, the reversal/trap
and mean-reversion bonuses raise the score under the matching conditions, and
the result is multiplied by confidence and rounded to 3 decimals. -/
def successScoreSpec (pred : PredictionRow) (actual_price : ℚ) : ℚ :=
  let pct := (actual_price - pred.price_at_prediction) / pred.price_at_prediction * 100
  let outcome := lowerChars (pred.predicted_outcome.getD "")
  let base :=
    if pred.signal = "BUY" then clamp (pct / 5) (-1) 1
    else if pred.signal = "SELL" then clamp (-pct / 5) (-1) 1
    else 0
  let score :=
    if containsSub outcome "reversal" || containsSub outcome "trap" then
      if pred.signal = "SELL" ∧ pct < -1 then max base (8/10)
      else if pred.signal = "BUY" ∧ 1 < pct then max base (8/10)
      else base
    else if containsSub outcome "mean reversion" then
      if pred.signal = "BUY" ∧ 0 < pct then max base (7/10)
      else if pred.signal = "SELL" ∧ pct < 0 then max base (7/10)
      else base
    else base
  round3 (score * pred.confidence)

theorem signalScoreRaw_eq_clamp (signal : String) (pct : ℚ) :
    signalScoreRaw signal pct =
      if signal = "BUY" then clamp (pct / 5) (-1) 1
      else if signal = "SELL" then clamp (-pct / 5) (-1) 1
      else 0 := by
  unfold signalScoreRaw clamp
  split
  · split
    · rename_i hpos
      rw [max_eq_right]
      exact le_min (by linarith) (by norm_num)
    · rename_i hpos
      push_neg at hpos
      rw [min_eq_left (by linarith), max_comm]
  · split
    · split
      · rename_i hneg
        rw [abs_of_neg hneg, max_eq_right]
        exact le_min (by linarith) (by norm_num)
      · rename_i hneg
        push_neg at hneg
        rw [min_eq_left (by linarith), max_comm]
    · rfl

/-- C5: the auditor's success score coincides with the reference definition
built from the spec's clamp formulas, bonuses, confidence weighting and
3-decimal rounding. -/
theorem calculate_success_score_eq_spec (pred : PredictionRow) (actual_price : ℚ) :
    calculateSuccessScore pred actual_price = successScoreSpec pred actual_price := by
  simp only [calculateSuccessScore, successScoreSpec, patternBonus, signalScoreRaw_eq_clamp]

theorem signalScoreRaw_bounds (signal : String) (pct : ℚ) :
    -1 ≤ signalScoreRaw signal pct ∧ signalScoreRaw signal pct ≤ 1 := by
  unfold signalScoreRaw
  split
  · split
    · rename_i hpos
      exact ⟨le_min (by linarith) (by norm_num), min_le_right _ _⟩
    · rename_i hpos
      push_neg at hpos
      exact ⟨le_max_right _ _, max_le (by linarith) (by norm_num)⟩
  · split
    · split
      · rename_i hneg
        rw [abs_of_neg hneg]
        exact ⟨le_min (by linarith) (by norm_num), min_le_right _ _⟩
      · rename_i hneg
        push_neg at hneg
        exact ⟨le_max_right _ _, max_le (by linarith) (by norm_num)⟩
    · norm_num

theorem patternBonus_bounds (outcome_lower : List Char) (signal : String)
    (pct score : ℚ) (h0 : -1 ≤ score) (h1 : score ≤ 1) :
    -1 ≤ patternBonus outcome_lower signal pct score ∧
      patternBonus outcome_lower signal pct score ≤ 1 := by
  unfold patternBonus
  split
  · split
    · exact ⟨le_trans h0 (le_max_left _ _), max_le h1 (by norm_num)⟩
    · split
      · exact ⟨le_trans h0 (le_max_left _ _), max_le h1 (by norm_num)⟩
      · exact ⟨h0, h1⟩
  · split
    · split
      · exact ⟨le_trans h0 (le_max_left _ _), max_le h1 (by norm_num)⟩
      · split
        · exact ⟨le_trans h0 (le_max_left _ _), max_le h1 (by norm_num)⟩
        · exact ⟨h0, h1⟩
    · exact ⟨h0, h1⟩

/-- C10 (amended): with confidence in `[0,1]`, the returned score always lies
in `[-1, +1]` and its absolute value is at most `confidence + 1/2000` (the final
3-decimal rounding can overshoot the confidence by up to half an ulp, so plain
`|score| ≤ confidence` fails); a `HOLD` signal always scores exactly 0. -/
theorem success_score_bounds (pred : PredictionRow) (actual_price : ℚ)
    (h0 : 0 ≤ pred.confidence) (h1 : pred.confidence ≤ 1) :
    |calculateSuccessScore pred actual_price| ≤ pred.confidence + 1/2000 ∧
    -1 ≤ calculateSuccessScore pred actual_price ∧
    calculateSuccessScore pred actual_price ≤ 1 ∧
    (pred.signal = "HOLD" → calculateSuccessScore pred actual_price = 0) := by
  simp only [calculateSuccessScore]
  set pct := (actual_price - pred.price_at_prediction) / pred.price_at_prediction * 100 with hpct
  set s := patternBonus (lowerChars (pred.predicted_outcome.getD "")) pred.signal pct
      (signalScoreRaw pred.signal pct) with hs
  obtain ⟨hb0, hb1⟩ := signalScoreRaw_bounds pred.signal pct
  obtain ⟨hs0, hs1⟩ := patternBonus_bounds (lowerChars (pred.predicted_outcome.getD ""))
      pred.signal pct (signalScoreRaw pred.signal pct) hb0 hb1
  rw [← hs] at hs0 hs1
  have habs : |s * pred.confidence| ≤ pred.confidence := by
    rw [abs_mul, abs_of_nonneg h0]
    have : |s| ≤ 1 := abs_le.mpr ⟨hs0, hs1⟩
    calc |s| * pred.confidence ≤ 1 * pred.confidence :=
          mul_le_mul_of_nonneg_right this h0
      _ = pred.confidence := one_mul _
  have hy1 : s * pred.confidence ≤ 1 := le_trans (le_of_abs_le habs) h1
  have hy0 : -1 ≤ s * pred.confidence := by
    have := neg_abs_le (s * pred.confidence)
    have h2 : -pred.confidence ≤ s * pred.confidence := by
      have := neg_le_neg habs
      linarith [neg_abs_le (s * pred.confidence)]
    linarith
  refine ⟨?_, neg_one_le_round3 _ hy0, round3_le_one _ hy1, ?_⟩
  · have hnear := round3_near (s * pred.confidence)
    calc |round3 (s * pred.confidence)|
        ≤ |round3 (s * pred.confidence) - s * pred.confidence| + |s * pred.confidence| := by
          have := abs_sub_abs_le_abs_sub (round3 (s * pred.confidence)) (s * pred.confidence)
          linarith [abs_nonneg (s * pred.confidence)]
      _ ≤ 1/2000 + pred.confidence := add_le_add hnear habs
      _ = pred.confidence + 1/2000 := by ring
  · intro hhold
    have hsig : signalScoreRaw pred.signal pct = 0 := by
      unfold signalScoreRaw
      rw [hhold, if_neg (by decide : ¬ ("HOLD" : String) = "BUY"),
        if_neg (by decide : ¬ ("HOLD" : String) = "SELL")]
    have hpb : s = 0 := by
      rw [hs, hsig]
      unfold patternBonus
      rw [hhold]
      simp [show ("HOLD" : String) ≠ "SELL" by decide,
        show ("HOLD" : String) ≠ "BUY" by decide]
    rw [hpb, zero_mul]
    unfold round3 pyRoundInt
    norm_num

/-- Counterexample to C10 as stated: a BUY prediction at price 100 with
confidence 0.0006 audited against actual price 110 scores `round(0.0006, 3)
= 0.001`, which exceeds the row's confidence. -/
def c10Row : PredictionRow :=
  { id := 0, timestamp := 0, predicted_bias := "", predicted_outcome := none,
    confidence := 6/10000, market_regime := "", archetype := "", signal := "BUY",
    price_at_prediction := 100, actual_price_1h := none, actual_price_4h := none,
    actual_price_12h := none, success_score_1h := none, success_score_4h := none,
    success_score_12h := none, audited := false }

theorem success_score_exceeds_confidence :
    calculateSuccessScore c10Row 110 = 1/1000 ∧
    0 ≤ c10Row.confidence ∧ c10Row.confidence ≤ 1 ∧
    c10Row.price_at_prediction ≠ 0 ∧
    ¬ |calculateSuccessScore c10Row 110| ≤ c10Row.confidence := by
  have h : calculateSuccessScore c10Row 110 = 1/1000 := by
    unfold calculateSuccessScore c10Row
    norm_num [signalScoreRaw, patternBonus, containsSub, lowerChars, round3, pyRoundInt]
  refine ⟨h, by norm_num [c10Row], by norm_num [c10Row], by norm_num [c10Row], ?_⟩
  rw [h, abs_of_pos (by norm_num : (0:ℚ) < 1/1000)]
  norm_num [c10Row]

/-- Witness for `success_score_bounds`: the bounds evaluated at `c10Row`. -/
theorem success_score_bounds_witness :
    (0 ≤ c10Row.confidence ∧ c10Row.confidence ≤ 1) ∧
    |calculateSuccessScore c10Row 110| ≤ c10Row.confidence + 1/2000 ∧
    -1 ≤ calculateSuccessScore c10Row 110 ∧
    calculateSuccessScore c10Row 110 ≤ 1 ∧
    (c10Row.signal = "HOLD" → calculateSuccessScore c10Row 110 = 0) :=
  ⟨⟨by norm_num [c10Row], by norm_num [c10Row]⟩,
    success_score_bounds c10Row 110 (by norm_num [c10Row]) (by norm_num [c10Row])⟩

/-!
## SentimentAgent rule-based sentiment (src/agents/perception.py)
-/

def positive_keywords : List String :=
  ["bullish", "growth", "gains", "surge", "rally", "positive", "integration"]

def negative_keywords : List String :=
  ["crash", "plunge", "bearish", "decline", "losses", "fear", "volatility"]

structure SentimentResult where
  sentiment : String
  multiplier : ℚ
  fear_greed_value : ℤ
deriving Repr

/-- `SentimentAgent._rule_based_sentiment`: Fear/Greed band table, then
headline-keyword skew, with the final multiplier rounded to 2 decimals. -/
def ruleBasedSentiment (fng_value : ℤ) (headlines : List String) : SentimentResult :=
  let sentiment : String :=
    if 75 ≤ fng_value then "Euphoric"
    else if 55 ≤ fng_value then "Neutral"
    else if 45 ≤ fng_value then "Neutral"
    else if 25 ≤ fng_value then "Neutral"
    else "Panicked"
  let multiplier : ℚ :=
    if 75 ≤ fng_value then 6/10
    else if 55 ≤ fng_value then 1
    else if 45 ≤ fng_value then 1
    else if 25 ≤ fng_value then 9/10
    else 7/10
  let headlines_text := lowerChars (String.intercalate " " headlines)
  let positive_count := positive_keywords.countP (fun kw => containsSub headlines_text kw)
  let negative_count := negative_keywords.countP (fun kw => containsSub headlines_text kw)
  let multiplier :=
    if negative_count + 1 < positive_count then min (multiplier + 1/10) (3/2)
    else if positive_count + 1 < negative_count then max (multiplier - 1/10) (1/2)
    else multiplier
  { sentiment := sentiment, multiplier := round2 multiplier, fear_greed_value := fng_value }

/-- The spec's band table: ≥75 → 0.6, 55..74 → 1.0, 45..54 → 1.0,
25..44 → 0.9, <25 → 0.7. -/
def bandBase (v : ℤ) : ℚ :=
  if 75 ≤ v then 6/10
  else if 55 ≤ v then 1
  else if 45 ≤ v then 1
  else if 25 ≤ v then 9/10
  else 7/10

/-- The spec's headline skew: +0.1 when positive keywords outnumber negative
by at least 2, −0.1 in the reverse case, else 0. -/
def headlineSkew (headlines : List String) : ℚ :=
  let text := lowerChars (String.intercalate " " headlines)
  let p := positive_keywords.countP (fun kw => containsSub text kw)
  let n := negative_keywords.countP (fun kw => containsSub text kw)
  if n + 2 ≤ p then 1/10
  else if p + 2 ≤ n then -(1/10)
  else 0

/-- C9: the rule-based sentiment multiplier equals the spec's band-table base
plus the headline skew, clamped to `[0.5, 1.5]`. -/
theorem rule_based_sentiment_spec (v : ℤ) (headlines : List String) :
    (ruleBasedSentiment v headlines).multiplier =
      clamp (bandBase v + headlineSkew headlines) (1/2) (3/2) := by
  simp only [ruleBasedSentiment, bandBase, headlineSkew, clamp]
  split_ifs <;> first
    | omega
    | norm_num [round2, pyRoundInt, min_def, max_def]

/-!
## EvolutionMemory (src/data/memory.py)

The parameter bundle is the dict `{reason, suggestion, regime}` built by the
Architect; `reason`/`suggestion` come from `dict.get` and may be `None`.
Blacklist lookup is plain dict equality (`_parameters_match`), i.e. structural
equality of the bundle.
-/

structure EvoParams where
  reason : Option String
  suggestion : Option String
  regime : String
deriving Repr, DecidableEq

structure BlacklistEntry where
  parameters : EvoParams
  pnl : ℚ
  timestamp : ℚ
  evolution_index : ℕ
  reason : String
deriving Repr, DecidableEq

structure EvolutionRecord where
  timestamp : ℚ
  parameters : EvoParams
  reason : String
  suggestion : String
  initial_equity : ℚ
  start_time : ℚ
  evaluated : Bool := false
  final_pnl : Option ℚ := none
  final_equity : Option ℚ := none
  current_pnl : Option ℚ := none
  current_equity : Option ℚ := none
  last_update : Option ℚ := none
deriving Repr, DecidableEq

/-- The in-memory `self.data` dict (keys `evolutions`, `blacklisted_parameters`,
`performance_windows`; the last is created empty and never appended to). -/
structure EvoMemoryData where
  evolutions : List EvolutionRecord
  blacklisted_parameters : List BlacklistEntry
deriving Repr, DecidableEq

def emptyEvoMemory : EvoMemoryData := { evolutions := [], blacklisted_parameters := [] }

/-- `EvolutionMemory.record_evolution`, with `datetime.now()` passed as `now`. -/
def recordEvolution (m : EvoMemoryData) (now : ℚ) (parameters : EvoParams)
    (reason suggestion : String) (initial_equity : ℚ) : EvoMemoryData :=
  { m with
    evolutions := m.evolutions ++
      [{ timestamp := now, parameters := parameters, reason := reason,
         suggestion := suggestion, initial_equity := initial_equity, start_time := now }] }

/-- `EvolutionMemory._blacklist_parameters` (the formatted reason text is kept
as a fixed marker string; only its presence matters to the model). -/
def blacklistParameters (m : EvoMemoryData) (now : ℚ) (parameters : EvoParams)
    (pnl : ℚ) (evolution_index : ℕ) : EvoMemoryData :=
  { m with
    blacklisted_parameters := m.blacklisted_parameters ++
      [{ parameters := parameters, pnl := pnl, timestamp := now,
         evolution_index := evolution_index,
         reason := "Negative PnL over 2-hour window" }] }

/-- `EvolutionMemory.update_performance_window`: out-of-range index is a no-op;
after more than 2 hours (7200 s) the window closes, blacklisting on negative
PnL and marking the record evaluated; within the window it only refreshes the
running PnL fields. -/
def updatePerformanceWindow (m : EvoMemoryData) (now : ℚ) (evolution_index : ℕ)
    (current_equity pnl : ℚ) : EvoMemoryData :=
  if h : evolution_index < m.evolutions.length then
    let evolution := m.evolutions.get ⟨evolution_index, h⟩
    if 7200 < now - evolution.start_time then
      let m' := if pnl < 0 then blacklistParameters m now evolution.parameters pnl evolution_index else m
      { m' with
        evolutions := m'.evolutions.set evolution_index
          { evolution with
            evaluated := true, final_pnl := some pnl,
            final_equity := some current_equity } }
    else
      { m with
        evolutions := m.evolutions.set evolution_index
          { evolution with
            current_equity := some current_equity,
            current_pnl := some pnl, last_update := some now } }
  else m

/-- `EvolutionMemory.is_blacklisted`: first matching entry (full structural
equality of the parameter bundle) wins. -/
def isBlacklisted (m : EvoMemoryData) (parameters : EvoParams) : Bool × Option String :=
  match m.blacklisted_parameters.find? (fun entry => entry.parameters = parameters) with
  | some entry => (true, some entry.reason)
  | none => (false, none)

theorem isBlacklisted_of_mem (m : EvoMemoryData) (params : EvoParams)
    (entry : BlacklistEntry) (hmem : entry ∈ m.blacklisted_parameters)
    (hp : entry.parameters = params) : (isBlacklisted m params).1 = true := by
  unfold isBlacklisted
  cases hf : m.blacklisted_parameters.find? (fun entry => entry.parameters = params) with
  | none =>
    exfalso
    have := List.find?_eq_none.mp hf entry hmem
    simp [hp] at this
  | some e => rfl

/-- C7 (round-trip law): recording an evolution with a parameter bundle and
then updating its performance window more than 2 hours after its start with
negative PnL makes `is_blacklisted` return true for the same bundle (lookup by
full structural equality). -/
theorem record_then_negative_window_blacklists
    (m : EvoMemoryData) (now₁ now₂ : ℚ) (params : EvoParams)
    (reason suggestion : String) (initial_equity current_equity pnl : ℚ)
    (helapsed : 7200 < now₂ - now₁) (hpnl : pnl < 0) :
    (isBlacklisted
        (updatePerformanceWindow
          (recordEvolution m now₁ params reason suggestion initial_equity)
          now₂ m.evolutions.length current_equity pnl)
        params).1 = true := by
  set m1 := recordEvolution m now₁ params reason suggestion initial_equity with hm1
  have hlen : m.evolutions.length < m1.evolutions.length := by
    simp [hm1, recordEvolution]
  have hget : m1.evolutions.get ⟨m.evolutions.length, hlen⟩ =
      { timestamp := now₁, parameters := params, reason := reason, suggestion := suggestion,
        initial_equity := initial_equity, start_time := now₁ } := by
    simp only [hm1, recordEvolution, List.get_eq_getElem]
    exact List.getElem_concat_length _ _ _ rfl _
  unfold updatePerformanceWindow
  rw [dif_pos hlen, hget]
  simp only
  rw [if_pos (by simpa using helapsed), if_pos hpnl]
  exact isBlacklisted_of_mem _ params
    ⟨params, pnl, now₂, m.evolutions.length, "Negative PnL over 2-hour window"⟩
    (by simp [blacklistParameters]) rfl

/-- Witness for `record_then_negative_window_blacklists`: a concrete bundle
recorded at t=0 and evaluated at t=7201 s with PnL −10 is blacklisted. -/
theorem record_then_negative_window_blacklists_witness :
    (isBlacklisted
        (updatePerformanceWindow
          (recordEvolution emptyEvoMemory 0 ⟨some "r", some "s", "UNKNOWN"⟩ "r" "s" 1000)
          7201 emptyEvoMemory.evolutions.length 990 (-10))
        ⟨some "r", some "s", "UNKNOWN"⟩).1 = true :=
  record_then_negative_window_blacklists emptyEvoMemory 0 7201 _ "r" "s" 1000 990 (-10)
    (by norm_num) (by norm_num)

/-!
## EvolutionMemory._save_history persistence (src/data/memory.py)

`_save_history` executes `open(self.history_file, 'w')` (which truncates the
target in place) followed by `json.dump(self.data, f)` (which writes the new
serialized content).  We model a save as the list of file-system micro-steps
it performs, so that every interruption point (every prefix of the list) is an
observable on-disk state.
-/

inductive FsOp where
  /-- `open(path, 'w')`: truncate the target file to empty. -/
  | truncateTarget
  /-- write serialized content into the (open) target file. -/
  | writeTarget (content : String)
  /-- write serialized content into a temporary sibling file. -/
  | writeTmp (content : String)
  /-- atomically rename the temporary file over the target. -/
  | renameTmpToTarget
deriving Repr, DecidableEq

structure FsState where
  target : String
  tmp : Option String
deriving Repr, DecidableEq

def applyFsOp (st : FsState) : FsOp → FsState
  | .truncateTarget => { st with target := "" }
  | .writeTarget content => { st with target := content }
  | .writeTmp content => { st with tmp := some content }
  | .renameTmpToTarget => { target := st.tmp.getD st.target, tmp := none }

def applyFsOps (st : FsState) (ops : List FsOp) : FsState :=
  ops.foldl applyFsOp st

/-- The micro-steps of `EvolutionMemory._save_history` as written: a direct
truncating open of the history file followed by the `json.dump` write. -/
def saveHistoryOps (new_content : String) : List FsOp :=
  [.truncateTarget, .writeTarget new_content]

/-- Modelled from the spec: the write-to-tmp-then-rename sequence the spec's
"atomic replace" describes (this sequence does not appear in
`src/data/memory.py`; it is the comparison point for the claim). -/
def atomicReplaceOps (new_content : String) : List FsOp :=
  [.writeTmp new_content, .renameTmpToTarget]

/-- A save procedure is torn-free when every interruption point leaves the
target file holding either the old or the new content. -/
def TornFree (ops : List FsOp) (old new : String) : Prop :=
  ∀ k : ℕ, (applyFsOps ⟨old, none⟩ (ops.take k)).target = old ∨
    (applyFsOps ⟨old, none⟩ (ops.take k)).target = new

/-- Counterexample to C8 as stated: interrupting `_save_history` right after
the truncating `open(..., 'w')` (prefix of length 1) leaves the history file
empty — neither the old nor the new content — so the save is not an atomic
replace. -/
theorem save_history_not_atomic :
    (applyFsOps ⟨"A", none⟩ ((saveHistoryOps "B").take 1)).target = "" ∧
    ¬ TornFree (saveHistoryOps "B") "A" "B" := by
  constructor
  · rfl
  · intro h
    rcases h 1 with h1 | h1 <;> simp [applyFsOps, applyFsOp, saveHistoryOps] at h1

/-- C8 (amended): `_save_history` is a direct truncate-then-write of the
history file, not a tmp-file-plus-rename replace; a completed save does leave
exactly the new serialized content, and the tmp-then-rename sequence the spec
describes would be torn-free at every interruption point, but the code's
sequence exposes a torn (empty) file between its two steps. -/
theorem save_history_direct_write (old new : String) :
    (applyFsOps ⟨old, none⟩ (saveHistoryOps new)).target = new ∧
    (applyFsOps ⟨old, none⟩ (atomicReplaceOps new)).target = new ∧
    TornFree (atomicReplaceOps new) old new ∧
    (applyFsOps ⟨old, none⟩ ((saveHistoryOps new).take 1)).target = "" := by
  refine ⟨rfl, rfl, ?_, rfl⟩
  intro k
  match k with
  | 0 => exact Or.inl rfl
  | 1 => exact Or.inl rfl
  | (n+2) =>
    refine Or.inr ?_
    simp [atomicReplaceOps, applyFsOps, applyFsOp]

/-!
## AdversarialAlpha.red_team_strategy (src/core/adversary.py)

All four checks are case-insensitive keyword scans over the candidate source.
Only two failures are critical (blocking): a missing stop-loss while
`stop_loss_required`, and a failed flash-crash simulation.
-/

structure RedTeamConfig where
  flash_crash_pct : ℚ
  max_drawdown_threshold : ℚ
  stop_loss_required : Bool
deriving Repr

/-- The configuration the Architect uses in `propose_evolution`:
`AdversarialAlpha(flash_crash_pct=-0.20, max_drawdown_threshold=0.15)` with
`stop_loss_required` left at its default `True`. -/
def architectAdversary : RedTeamConfig :=
  { flash_crash_pct := -(1/5), max_drawdown_threshold := 3/20, stop_loss_required := true }

def stop_loss_keywords : List String :=
  ["stop_loss", "stop-loss", "stoploss", "max_loss", "loss_threshold",
   "drawdown_limit", "kill_switch"]

def position_keywords : List String :=
  ["position_size", "max_position", "size_limit", "position_limit",
   "max_size", "leverage_limit"]

def drawdown_keywords : List String :=
  ["drawdown", "max_dd", "max_drawdown", "cumulative_loss",
   "peak_to_trough", "underwater"]

/-- Python `abs` on a rational (kernel-reducible, unlike Mathlib's
lattice-derived `|·|`). -/
def pyAbs (x : ℚ) : ℚ := if x < 0 then -x else x

theorem pyAbs_eq_abs (x : ℚ) : pyAbs x = |x| := by
  unfold pyAbs
  split
  · rename_i h
    rw [abs_of_neg h]
  · rename_i h
    push_neg at h
    rw [abs_of_nonneg h]

/-- `AdversarialAlpha._check_stop_loss` (keyword analysis on lowered code). -/
def checkStopLoss (strategy_code : String) : Bool :=
  stop_loss_keywords.any (fun kw => containsSub (lowerChars strategy_code) kw)

/-- `AdversarialAlpha._simulate_flash_crash`: the estimated drawdown starts at
`|flash_crash_pct|` and shrinks ×0.4 / ×0.7 / ×0.8 for each defensive keyword
family present; the test passes when it is ≤ `max_drawdown_threshold`. -/
def simulateFlashCrash (cfg : RedTeamConfig) (strategy_code : String) : Bool :=
  let code_lower := lowerChars strategy_code
  let has_stop_loss := containsSub code_lower "stop_loss"
  let has_position_limits :=
    (["position_size", "max_position", "size_limit"] : List String).any
      (fun kw => containsSub code_lower kw)
  let has_risk_management :=
    (["risk", "drawdown", "volatility"] : List String).any
      (fun kw => containsSub code_lower kw)
  let base_drawdown := pyAbs cfg.flash_crash_pct
  let base_drawdown := if has_stop_loss then base_drawdown * (2/5) else base_drawdown
  let base_drawdown := if has_position_limits then base_drawdown * (7/10) else base_drawdown
  let base_drawdown := if has_risk_management then base_drawdown * (4/5) else base_drawdown
  decide (base_drawdown ≤ cfg.max_drawdown_threshold)

/-- `AdversarialAlpha._check_position_limits`. -/
def checkPositionLimits (strategy_code : String) : Bool :=
  position_keywords.any (fun kw => containsSub (lowerChars strategy_code) kw)

/-- `AdversarialAlpha._check_drawdown_monitoring`. -/
def checkDrawdownMonitoring (strategy_code : String) : Bool :=
  drawdown_keywords.any (fun kw => containsSub (lowerChars strategy_code) kw)

/-- `AdversarialAlpha.red_team_strategy`: approved iff no critical failure,
i.e. iff (stop-loss present or not required) and the flash-crash test passes.
The position-limit and drawdown-monitoring checks are advisory only. -/
def redTeamApproved (cfg : RedTeamConfig) (strategy_code : String) : Bool :=
  let stop_loss_missing := !checkStopLoss strategy_code
  let flash_crash_failure := !simulateFlashCrash cfg strategy_code
  !((cfg.stop_loss_required && stop_loss_missing) || flash_crash_failure)

/-!
## Architect.propose_evolution / Architect.evolve (src/architect.py)

The candidate generator `_generate_evolved_code` is a fixed f-string template
over the current code, the suggestion and the analysis; the claims quantify
over the candidate source, so the generator is a parameter `gen` of the model.
`Guardrails.audit_code` parses and dry-executes Python source, which has no
shallow embedding; it enters the model as the oracle parameter `auditOk`.
Exceptions do not arise in the model (file reads are total, the adversary
screen always runs).
-/

structure Suggestion where
  reason : Option String
  suggestion : Option String
deriving Repr, DecidableEq

structure Analysis where
  evolution_suggestion : Option Suggestion
  regime : Option String
deriving Repr, DecidableEq

/-- The active decision-module file and its single `.backup` sibling. -/
structure LogicFs where
  active : String
  backup : Option String
deriving Repr, DecidableEq

/-- The parameter bundle `propose_evolution`/`evolve` build from an analysis. -/
def paramsOf (sugg : Suggestion) (analysis : Analysis) : EvoParams :=
  ⟨sugg.reason, sugg.suggestion, analysis.regime.getD "UNKNOWN"⟩

/-- `Architect.propose_evolution`: requires a suggestion, a non-blacklisted
parameter bundle, and adversary approval of the generated candidate. -/
def proposeEvolution (mem : EvoMemoryData) (fs : LogicFs)
    (gen : String → Suggestion → Analysis → String) (analysis : Analysis) :
    Option String :=
  match analysis.evolution_suggestion with
  | none => none
  | some sugg =>
    if (isBlacklisted mem (paramsOf sugg analysis)).1 then none
    else
      let evolved_code := gen fs.active sugg analysis
      if redTeamApproved architectAdversary evolved_code then some evolved_code
      else none

/-- One full `Architect.evolve` call.  Returns the boolean result together
with the updated guardrails, evolution memory and decision-module files.
`write_ok` models whether the write of the evolved module succeeds; on failure
the backup (just written from the old active file) is restored. -/
def evolve (g : Guardrails) (now : ℚ) (mem : EvoMemoryData) (fs : LogicFs)
    (gen : String → Suggestion → Analysis → String) (auditOk : String → Bool)
    (analysis : Analysis) (write_ok : Bool) :
    Bool × Guardrails × EvoMemoryData × LogicFs :=
  if !canEvolve g now then (false, g, mem, fs)
  else if isKillSwitchActive g then (false, g, mem, fs)
  else
    match proposeEvolution mem fs gen analysis with
    | none => (false, g, mem, fs)
    | some new_code =>
      if new_code = "" then (false, g, mem, fs)
      else if !auditOk new_code then (false, g, mem, fs)
      else
        match analysis.evolution_suggestion with
        | none => (false, g, mem, fs)
        | some sugg =>
          if write_ok then
            let fs' : LogicFs := { active := new_code, backup := some fs.active }
            let g' := markEvolution g now
            let mem' := recordEvolution mem now (paramsOf sugg analysis)
              (sugg.reason.getD "") (sugg.suggestion.getD "") g.current_equity
            (true, g', mem', fs')
          else
            (false, g, mem, { active := fs.active, backup := some fs.active })

theorem proposeEvolution_none_of_rejected
    (mem : EvoMemoryData) (fs : LogicFs)
    (gen : String → Suggestion → Analysis → String) (analysis : Analysis)
    (sugg : Suggestion) (hsugg : analysis.evolution_suggestion = some sugg)
    (hrej : redTeamApproved architectAdversary (gen fs.active sugg analysis) = false) :
    proposeEvolution mem fs gen analysis = none := by
  unfold proposeEvolution
  rw [hsugg]
  by_cases hb : (isBlacklisted mem (paramsOf sugg analysis)).1 = true
  · simp [hb]
  · simp only [Bool.not_eq_true] at hb
    simp [hb, hrej]

theorem evolve_false_of_propose_none
    (g : Guardrails) (now : ℚ) (mem : EvoMemoryData) (fs : LogicFs)
    (gen : String → Suggestion → Analysis → String) (auditOk : String → Bool)
    (analysis : Analysis) (write_ok : Bool)
    (hnone : proposeEvolution mem fs gen analysis = none) :
    evolve g now mem fs gen auditOk analysis write_ok = (false, g, mem, fs) := by
  unfold evolve
  split
  · rfl
  · split
    · rfl
    · rw [hnone]

/-- C4: whenever the adversarial screen rejects the generated candidate,
`evolve` returns false and both the active decision-module file and its backup
are byte-identical before and after the call; and the empty candidate source
is rejected (its stop-loss keyword check fails, so the screen disapproves). -/
theorem adversary_rejection_frame (g : Guardrails) (now : ℚ) (mem : EvoMemoryData)
    (fs : LogicFs) (gen : String → Suggestion → Analysis → String)
    (auditOk : String → Bool) (analysis : Analysis) (write_ok : Bool)
    (sugg : Suggestion) (hsugg : analysis.evolution_suggestion = some sugg)
    (hrej : redTeamApproved architectAdversary (gen fs.active sugg analysis) = false) :
    (evolve g now mem fs gen auditOk analysis write_ok).1 = false ∧
    (evolve g now mem fs gen auditOk analysis write_ok).2.2.2 = fs ∧
    checkStopLoss "" = false ∧
    redTeamApproved architectAdversary "" = false := by
  have h := evolve_false_of_propose_none g now mem fs gen auditOk analysis write_ok
    (proposeEvolution_none_of_rejected mem fs gen analysis sugg hsugg hrej)
  rw [h]
  exact ⟨rfl, rfl, by decide, by decide⟩

/-- A quiescent guardrails state used by the closed witnesses. -/
def gStart : Guardrails :=
  { initial_equity := 1000, current_equity := 1000, kill_switch_threshold := 3/100,
    stability_lock_hours := 12, last_evolution_time := none,
    equity_history := [], kill_switch_triggered := false }

/-- Witness for `adversary_rejection_frame`: an Architect whose generator
produces the empty source; the screen rejects it and the module files are
untouched. -/
theorem adversary_rejection_frame_witness :
    (evolve gStart 0 emptyEvoMemory ⟨"old", none⟩ (fun _ _ _ => "") (fun _ => true)
        ⟨some ⟨some "r", some "s"⟩, some "TRENDING_UP"⟩ true).1 = false ∧
    (evolve gStart 0 emptyEvoMemory ⟨"old", none⟩ (fun _ _ _ => "") (fun _ => true)
        ⟨some ⟨some "r", some "s"⟩, some "TRENDING_UP"⟩ true).2.2.2 = ⟨"old", none⟩ ∧
    checkStopLoss "" = false ∧
    redTeamApproved architectAdversary "" = false :=
  adversary_rejection_frame gStart 0 emptyEvoMemory ⟨"old", none⟩ (fun _ _ _ => "")
    (fun _ => true) ⟨some ⟨some "r", some "s"⟩, some "TRENDING_UP"⟩ true
    ⟨some "r", some "s"⟩ rfl (by decide)

/-!
### The evolution-gate environment (C1)

The backtest gate (`VectorizedBacktester.validate_for_deployment`, consulted in
`main.py`'s `evolution_check_loop` before `Architect.evolve` is invoked) is part
of the environment of an evolution attempt, so it appears below as the field
`backtest_can_deploy`; `Architect.evolve` itself never reads it.
-/

structure EvolutionGateEnv where
  guardrails : Guardrails
  now : ℚ
  memory : EvoMemoryData
  fs : LogicFs
  gen : String → Suggestion → Analysis → String
  auditOk : String → Bool
  analysis : Analysis
  write_ok : Bool
  backtest_can_deploy : Bool

/-- The boolean result of `Architect.evolve` in an evolution-gate environment. -/
def evolveRun (e : EvolutionGateEnv) : Bool :=
  (evolve e.guardrails e.now e.memory e.fs e.gen e.auditOk e.analysis e.write_ok).1

/-- An environment whose backtest gate reports `can_deploy = false` while every
gate inside `evolve` passes. -/
def envBacktestFails : EvolutionGateEnv :=
  { guardrails := gStart, now := 0, memory := emptyEvoMemory,
    fs := ⟨"old", none⟩, gen := fun _ _ _ => "stop_loss",
    auditOk := fun _ => true,
    analysis := ⟨some ⟨some "r", some "s"⟩, some "TRENDING_UP"⟩,
    write_ok := true, backtest_can_deploy := false }

theorem flash_crash_passes_stop_loss :
    simulateFlashCrash architectAdversary "stop_loss" = true := by
  unfold simulateFlashCrash architectAdversary
  simp only [show containsSub (lowerChars "stop_loss") "stop_loss" = true from by decide,
    show (["position_size", "max_position", "size_limit"] : List String).any
      (fun kw => containsSub (lowerChars "stop_loss") kw) = false from by decide,
    show (["risk", "drawdown", "volatility"] : List String).any
      (fun kw => containsSub (lowerChars "stop_loss") kw) = false from by decide,
    if_true, Bool.false_eq_true, if_false, decide_eq_true_eq]
  norm_num [pyAbs]

theorem red_team_approves_stop_loss :
    redTeamApproved architectAdversary "stop_loss" = true := by
  unfold redTeamApproved
  simp only [flash_crash_passes_stop_loss,
    show checkStopLoss "stop_loss" = true from by decide]
  rfl

theorem propose_envBacktestFails :
    proposeEvolution emptyEvoMemory ⟨"old", none⟩ (fun _ _ _ => "stop_loss")
      ⟨some ⟨some "r", some "s"⟩, some "TRENDING_UP"⟩ = some "stop_loss" := by
  unfold proposeEvolution
  simp [isBlacklisted, paramsOf, emptyEvoMemory, red_team_approves_stop_loss]

theorem evolveRun_envBacktestFails : evolveRun envBacktestFails = true := by
  unfold evolveRun evolve envBacktestFails
  simp [canEvolve, gStart, isKillSwitchActive, propose_envBacktestFails]

/-- Counterexample to C1 as stated: `Architect.evolve` returns true in an
environment whose external backtest gate reports `can_deploy = false` —
the backtest gate is consulted by the supervisor loop before calling `evolve`
(and on the current module file), never inside `evolve`, so a failing backtest
gate does not make `evolve` return false. -/
theorem evolve_true_despite_backtest_failure :
    evolveRun envBacktestFails = true ∧
    envBacktestFails.backtest_can_deploy = false :=
  ⟨evolveRun_envBacktestFails, rfl⟩

/-- C1 (amended): `evolve` returns true only if every gate *it* performs
passes — `can_evolve`, kill-switch inactive, a non-empty proposed candidate
(whose generation already requires adversary approval), `audit_code`
acceptance, and a successful module write; and whenever the kill-switch is
latched, `evolve` returns false.  The external backtest gate is enforced by
the supervisor's evolution loop before `evolve` is invoked, not inside it. -/
theorem evolve_gates_necessary (e : EvolutionGateEnv) :
    (evolveRun e = true →
      canEvolve e.guardrails e.now = true ∧
      e.guardrails.kill_switch_triggered = false ∧
      (∃ code, proposeEvolution e.memory e.fs e.gen e.analysis = some code ∧
        code ≠ "" ∧
        redTeamApproved architectAdversary code = true ∧
        e.auditOk code = true) ∧
      e.write_ok = true) ∧
    (e.guardrails.kill_switch_triggered = true → evolveRun e = false) := by
  constructor
  · intro htrue
    have h1 : canEvolve e.guardrails e.now = true := by
      by_contra hc
      have hc' : canEvolve e.guardrails e.now = false := by simpa using hc
      simp [evolveRun, evolve, hc'] at htrue
    have h2 : e.guardrails.kill_switch_triggered = false := by
      by_contra hc
      have hc' : e.guardrails.kill_switch_triggered = true := by simpa using hc
      simp [evolveRun, evolve, h1, isKillSwitchActive, hc'] at htrue
    refine ⟨h1, h2, ?_⟩
    cases hprop : proposeEvolution e.memory e.fs e.gen e.analysis with
    | none =>
      exfalso
      simp [evolveRun, evolve, h1, isKillSwitchActive, h2, hprop] at htrue
    | some code =>
      have happr : redTeamApproved architectAdversary code = true := by
        unfold proposeEvolution at hprop
        cases hs : e.analysis.evolution_suggestion with
        | none => rw [hs] at hprop; exact absurd hprop (by simp)
        | some sugg =>
          rw [hs] at hprop
          by_cases hb : (isBlacklisted e.memory (paramsOf sugg e.analysis)).1 = true
          · simp [hb] at hprop
          · simp only [Bool.not_eq_true] at hb
            simp only [hb, Bool.false_eq_true, if_false] at hprop
            split at hprop
            · rename_i ha
              cases hprop
              exact ha
            · exact absurd hprop (by simp)
      have hne : code ≠ "" := by
        intro hcode
        simp [evolveRun, evolve, h1, isKillSwitchActive, h2, hprop, hcode] at htrue
      have haud : e.auditOk code = true := by
        by_contra hc
        have hc' : e.auditOk code = false := by simpa using hc
        simp [evolveRun, evolve, h1, isKillSwitchActive, h2, hprop, hne, hc'] at htrue
      have hwrite : e.write_ok = true := by
        by_contra hc
        have hc' : e.write_ok = false := by simpa using hc
        cases hs : e.analysis.evolution_suggestion with
        | none =>
          unfold proposeEvolution at hprop
          rw [hs] at hprop
          exact absurd hprop (by simp)
        | some sugg =>
          simp [evolveRun, evolve, h1, isKillSwitchActive, h2, hprop, hne, haud, hs, hc'] at htrue
      exact ⟨⟨code, rfl, hne, happr, haud⟩, hwrite⟩
  · intro hk
    unfold evolveRun evolve
    split
    · rfl
    · simp [isKillSwitchActive, hk]

/-- The environment above with the kill-switch latched. -/
def envKillSwitch : EvolutionGateEnv :=
  { envBacktestFails with guardrails := { gStart with kill_switch_triggered := true } }

/-- Witness for `evolve_gates_necessary`: at `envBacktestFails` (where `evolve`
succeeds) the gates it enforces all hold, and at the same environment with the
kill-switch latched `evolve` returns false. -/
theorem evolve_gates_necessary_witness :
    (canEvolve envBacktestFails.guardrails envBacktestFails.now = true ∧
      envBacktestFails.guardrails.kill_switch_triggered = false ∧
      (∃ code, proposeEvolution envBacktestFails.memory envBacktestFails.fs
          envBacktestFails.gen envBacktestFails.analysis = some code ∧
        code ≠ "" ∧
        redTeamApproved architectAdversary code = true ∧
        envBacktestFails.auditOk code = true) ∧
      envBacktestFails.write_ok = true) ∧
    evolveRun envKillSwitch = false :=
  ⟨(evolve_gates_necessary envBacktestFails).1 evolveRun_envBacktestFails,
    (evolve_gates_necessary envKillSwitch).2 rfl⟩

/-!
## IntelligenceLedger and the audit cycle (src/agents/reconciliation_loop.py)

The `predictions` table is a list of rows; `id` is the AUTOINCREMENT primary
key (starting at 1), so freshly inserted rows get `next_id` and updates by id
touch exactly one row.  SQL `UPDATE ... WHERE id = ?` is modelled as a map over
all rows with a matching id.
-/

inductive Timeframe where
  | h1
  | h4
  | h12
deriving Repr, DecidableEq

def PredictionRow.scoreAt (r : PredictionRow) : Timeframe → Option ℚ
  | .h1 => r.success_score_1h
  | .h4 => r.success_score_4h
  | .h12 => r.success_score_12h

def PredictionRow.withActual (r : PredictionRow) (tf : Timeframe) (v : ℚ) : PredictionRow :=
  match tf with
  | .h1 => { r with actual_price_1h := some v }
  | .h4 => { r with actual_price_4h := some v }
  | .h12 => { r with actual_price_12h := some v }

def PredictionRow.withScore (r : PredictionRow) (tf : Timeframe) (v : ℚ) : PredictionRow :=
  match tf with
  | .h1 => { r with success_score_1h := some v }
  | .h4 => { r with success_score_4h := some v }
  | .h12 => { r with success_score_12h := some v }

structure Ledger where
  rows : List PredictionRow
  next_id : ℕ
deriving Repr, DecidableEq

/-- A freshly initialized database (`_init_database`): empty table, first
AUTOINCREMENT id 1. -/
def emptyLedger : Ledger := { rows := [], next_id := 1 }

/-- The arguments of `IntelligenceLedger.record_prediction`. -/
structure PredictionInput where
  predicted_bias : String
  predicted_outcome : Option String
  confidence : ℚ
  market_regime : String
  archetype : String
  signal : String
  price_at_prediction : ℚ
deriving Repr, DecidableEq

/-- `IntelligenceLedger.record_prediction`: INSERT with NULL actual prices and
scores and `audited` defaulted to 0. -/
def recordPrediction (l : Ledger) (now : ℚ) (inp : PredictionInput) : Ledger :=
  { rows := l.rows ++
      [{ id := l.next_id, timestamp := now, predicted_bias := inp.predicted_bias,
         predicted_outcome := inp.predicted_outcome, confidence := inp.confidence,
         market_regime := inp.market_regime, archetype := inp.archetype,
         signal := inp.signal, price_at_prediction := inp.price_at_prediction,
         actual_price_1h := none, actual_price_4h := none, actual_price_12h := none,
         success_score_1h := none, success_score_4h := none, success_score_12h := none,
         audited := false }],
    next_id := l.next_id + 1 }

/-- `IntelligenceLedger.update_actual_price`. -/
def updateActualPrice (l : Ledger) (prediction_id : ℕ) (actual_price : ℚ)
    (tf : Timeframe) : Ledger :=
  { l with rows := l.rows.map (fun r =>
      if r.id = prediction_id then r.withActual tf actual_price else r) }

/-- `IntelligenceLedger.update_success_score`. -/
def updateSuccessScore (l : Ledger) (prediction_id : ℕ) (tf : Timeframe)
    (score : ℚ) : Ledger :=
  { l with rows := l.rows.map (fun r =>
      if r.id = prediction_id then r.withScore tf score else r) }

/-- `IntelligenceLedger.mark_audited`. -/
def markAudited (l : Ledger) (prediction_id : ℕ) : Ledger :=
  { l with rows := l.rows.map (fun r =>
      if r.id = prediction_id then { r with audited := true } else r) }

/-- `IntelligenceLedger.get_unaudited_predictions`: rows old enough whose
score for the timeframe is NULL, newest first, at most 100. -/
def getUnauditedPredictions (l : Ledger) (tf : Timeframe) (min_age_hours : ℚ)
    (now : ℚ) : List PredictionRow :=
  ((l.rows.filter (fun r =>
      r.timestamp ≤ now - min_age_hours * 3600 ∧ (r.scoreAt tf).isNone)).mergeSort
    (fun a b => b.timestamp ≤ a.timestamp)).take 100

/-- `ReconciliationAuditor._is_fully_audited`: all three scores non-NULL for
the row with this id (false when the row does not exist). -/
def isFullyAudited (l : Ledger) (prediction_id : ℕ) : Bool :=
  match l.rows.find? (fun r => r.id = prediction_id) with
  | none => false
  | some r =>
    r.success_score_1h.isSome && r.success_score_4h.isSome && r.success_score_12h.isSome

/-- The body of the `for pred in predictions` loop of
`ReconciliationAuditor._audit_timeframe`. -/
def auditStep (tf : Timeframe) (current_price : ℚ) (st : Ledger)
    (pred : PredictionRow) : Ledger :=
  let st1 := updateActualPrice st pred.id current_price tf
  let score := calculateSuccessScore pred current_price
  let st2 := updateSuccessScore st1 pred.id tf score
  if isFullyAudited st2 pred.id then markAudited st2 pred.id else st2

/-- `ReconciliationAuditor._audit_timeframe`. -/
def auditTimeframe (l : Ledger) (tf : Timeframe) (hours : ℚ)
    (now current_price : ℚ) : Ledger :=
  (getUnauditedPredictions l tf hours now).foldl (auditStep tf current_price) l

/-- `ReconciliationAuditor.run_audit_cycle` (audit intervals 1h, 4h, 12h). -/
def runAuditCycle (l : Ledger) (now current_price : ℚ) : Ledger :=
  let l := auditTimeframe l .h1 1 now current_price
  let l := auditTimeframe l .h4 4 now current_price
  auditTimeframe l .h12 12 now current_price

/-- The operations the auditor subsystem performs on the ledger. -/
inductive AuditorOp where
  | record (now : ℚ) (inp : PredictionInput)
  | runCycle (now current_price : ℚ)

def applyAuditorOp (l : Ledger) : AuditorOp → Ledger
  | .record now inp => recordPrediction l now inp
  | .runCycle now current_price => runAuditCycle l now current_price

def applyAuditorOps (l : Ledger) (ops : List AuditorOp) : Ledger :=
  ops.foldl applyAuditorOp l

/-- Row ids are unique and bounded by the AUTOINCREMENT counter. -/
def IdInv (l : Ledger) : Prop :=
  (∀ r ∈ l.rows, r.id < l.next_id) ∧ (l.rows.map PredictionRow.id).Nodup

/-- The claimed invariant: `audited = true` implies all three scores present. -/
def ScoreInv (l : Ledger) : Prop :=
  ∀ r ∈ l.rows, r.audited = true →
    r.success_score_1h.isSome = true ∧ r.success_score_4h.isSome = true ∧
      r.success_score_12h.isSome = true

def LedgerInv (l : Ledger) : Prop := IdInv l ∧ ScoreInv l

theorem foldl_preserve {σ α : Type _} (P : σ → Prop) (f : σ → α → σ)
    (hstep : ∀ s a, P s → P (f s a)) :
    ∀ (xs : List α) (s : σ), P s → P (xs.foldl f s) := by
  intro xs
  induction xs with
  | nil => intro s hs; exact hs
  | cons a t ih => intro s hs; exact ih _ (hstep s a hs)

theorem withActual_id (r : PredictionRow) (tf : Timeframe) (v : ℚ) :
    (r.withActual tf v).id = r.id := by cases tf <;> rfl

theorem withScore_id (r : PredictionRow) (tf : Timeframe) (v : ℚ) :
    (r.withScore tf v).id = r.id := by cases tf <;> rfl

theorem withActual_audited (r : PredictionRow) (tf : Timeframe) (v : ℚ) :
    (r.withActual tf v).audited = r.audited := by cases tf <;> rfl

theorem withScore_audited (r : PredictionRow) (tf : Timeframe) (v : ℚ) :
    (r.withScore tf v).audited = r.audited := by cases tf <;> rfl

theorem withActual_scores (r : PredictionRow) (tf : Timeframe) (v : ℚ) :
    (r.withActual tf v).success_score_1h = r.success_score_1h ∧
    (r.withActual tf v).success_score_4h = r.success_score_4h ∧
    (r.withActual tf v).success_score_12h = r.success_score_12h := by
  cases tf <;> exact ⟨rfl, rfl, rfl⟩

theorem withScore_scores_isSome (r : PredictionRow) (tf : Timeframe) (v : ℚ) :
    (r.success_score_1h.isSome = true → (r.withScore tf v).success_score_1h.isSome = true) ∧
    (r.success_score_4h.isSome = true → (r.withScore tf v).success_score_4h.isSome = true) ∧
    (r.success_score_12h.isSome = true → (r.withScore tf v).success_score_12h.isSome = true) := by
  cases tf <;> exact ⟨by intro h; simp [PredictionRow.withScore] <;> exact h,
    by intro h; simp [PredictionRow.withScore] <;> exact h,
    by intro h; simp [PredictionRow.withScore] <;> exact h⟩

theorem idInv_map (l : Ledger) (f : PredictionRow → PredictionRow)
    (hid : ∀ r, (f r).id = r.id) (h : IdInv l) :
    IdInv { l with rows := l.rows.map f } := by
  obtain ⟨hb, hnd⟩ := h
  constructor
  · intro r hr
    obtain ⟨r₀, hr₀, rfl⟩ := List.mem_map.mp hr
    rw [hid]
    exact hb r₀ hr₀
  · show ((l.rows.map f).map PredictionRow.id).Nodup
    rw [List.map_map]
    have : l.rows.map (PredictionRow.id ∘ f) = l.rows.map PredictionRow.id :=
      List.map_congr_left (fun r _ => hid r)
    rw [this]
    exact hnd

theorem scoreInv_map (l : Ledger) (f : PredictionRow → PredictionRow)
    (haud : ∀ r, (f r).audited = r.audited)
    (hs1 : ∀ r, r.success_score_1h.isSome = true → (f r).success_score_1h.isSome = true)
    (hs4 : ∀ r, r.success_score_4h.isSome = true → (f r).success_score_4h.isSome = true)
    (hs12 : ∀ r, r.success_score_12h.isSome = true → (f r).success_score_12h.isSome = true)
    (h : ScoreInv l) : ScoreInv { l with rows := l.rows.map f } := by
  intro r' hr' haud'
  obtain ⟨r, hr, rfl⟩ := List.mem_map.mp hr'
  rw [haud r] at haud'
  obtain ⟨h1, h4, h12⟩ := h r hr haud'
  exact ⟨hs1 r h1, hs4 r h4, hs12 r h12⟩

theorem updateActualPrice_ledgerInv (l : Ledger) (pid : ℕ) (v : ℚ) (tf : Timeframe)
    (h : LedgerInv l) : LedgerInv (updateActualPrice l pid v tf) := by
  obtain ⟨hid, hsc⟩ := h
  refine ⟨idInv_map l _ ?_ hid, scoreInv_map l _ ?_ ?_ ?_ ?_ hsc⟩
  · intro r
    by_cases hc : r.id = pid <;> simp [hc, withActual_id]
  · intro r
    by_cases hc : r.id = pid <;> simp [hc, withActual_audited]
  all_goals
    intro r h1
    by_cases hc : r.id = pid <;>
      simpa [hc, (withActual_scores r tf v).1, (withActual_scores r tf v).2.1,
        (withActual_scores r tf v).2.2] using h1

theorem updateSuccessScore_ledgerInv (l : Ledger) (pid : ℕ) (tf : Timeframe) (v : ℚ)
    (h : LedgerInv l) : LedgerInv (updateSuccessScore l pid tf v) := by
  obtain ⟨hid, hsc⟩ := h
  refine ⟨idInv_map l _ ?_ hid, scoreInv_map l _ ?_ ?_ ?_ ?_ hsc⟩
  · intro r
    by_cases hc : r.id = pid <;> simp [hc, withScore_id]
  · intro r
    by_cases hc : r.id = pid <;> simp [hc, withScore_audited]
  · intro r h1
    by_cases hc : r.id = pid
    · simpa [hc] using (withScore_scores_isSome r tf v).1 h1
    · simpa [hc] using h1
  · intro r h1
    by_cases hc : r.id = pid
    · simpa [hc] using (withScore_scores_isSome r tf v).2.1 h1
    · simpa [hc] using h1
  · intro r h1
    by_cases hc : r.id = pid
    · simpa [hc] using (withScore_scores_isSome r tf v).2.2 h1
    · simpa [hc] using h1

theorem find_id_of_nodup (rows : List PredictionRow)
    (hnd : (rows.map PredictionRow.id).Nodup) (r : PredictionRow) (hr : r ∈ rows)
    (pid : ℕ) (hid : r.id = pid) :
    rows.find? (fun x => x.id = pid) = some r := by
  induction rows with
  | nil => cases hr
  | cons a t ih =>
    rw [List.map_cons, List.nodup_cons] at hnd
    obtain ⟨hna, hndt⟩ := hnd
    by_cases ha : a.id = pid
    · have hra : r = a := by
        rcases List.mem_cons.mp hr with h | h
        · exact h
        · exact absurd (List.mem_map.mpr ⟨r, h, by rw [hid, ← ha]⟩) hna
      rw [hra]
      simp [List.find?_cons, ha]
    · have hrt : r ∈ t := by
        rcases List.mem_cons.mp hr with h | h
        · rw [h] at hid; exact absurd hid ha
        · exact h
      rw [List.find?_cons]
      have hpa : decide (a.id = pid) = false := by simp [ha]
      rw [hpa]
      exact ih hndt hrt

theorem markAudited_ledgerInv (l : Ledger) (pid : ℕ)
    (hfull : isFullyAudited l pid = true) (h : LedgerInv l) :
    LedgerInv (markAudited l pid) := by
  obtain ⟨hid, hsc⟩ := h
  refine ⟨idInv_map l _ ?_ hid, ?_⟩
  · intro r
    by_cases hc : r.id = pid <;> simp [hc]
  · intro r' hr' haud'
    obtain ⟨r, hr, rfl⟩ := List.mem_map.mp hr'
    by_cases hc : r.id = pid
    · have hfind := find_id_of_nodup l.rows hid.2 r hr pid hc
      unfold isFullyAudited at hfull
      rw [hfind] at hfull
      simp only [Bool.and_eq_true] at hfull
      simp only [hc, if_true]
      exact ⟨hfull.1.1, hfull.1.2, hfull.2⟩
    · simp only [hc, if_false] at haud' ⊢
      exact hsc r hr haud'

theorem auditStep_ledgerInv (tf : Timeframe) (price : ℚ) (st : Ledger)
    (pred : PredictionRow) (h : LedgerInv st) :
    LedgerInv (auditStep tf price st pred) := by
  unfold auditStep
  have h2 := updateSuccessScore_ledgerInv _ pred.id tf (calculateSuccessScore pred price)
    (updateActualPrice_ledgerInv st pred.id price tf h)
  by_cases hfull : isFullyAudited
      (updateSuccessScore (updateActualPrice st pred.id price tf) pred.id tf
        (calculateSuccessScore pred price)) pred.id = true
  · simp only [hfull, if_true]
    exact markAudited_ledgerInv _ pred.id hfull h2
  · simp only [Bool.not_eq_true] at hfull
    simp only [hfull, Bool.false_eq_true, if_false]
    exact h2

theorem recordPrediction_ledgerInv (l : Ledger) (now : ℚ) (inp : PredictionInput)
    (h : LedgerInv l) : LedgerInv (recordPrediction l now inp) := by
  obtain ⟨⟨hb, hnd⟩, hsc⟩ := h
  refine ⟨⟨?_, ?_⟩, ?_⟩
  · intro r hr
    simp only [recordPrediction, List.mem_append, List.mem_singleton] at hr
    rcases hr with h | h
    · exact Nat.lt_succ_of_lt (hb r h)
    · rw [h]
      exact Nat.lt_succ_self _
  · show ((l.rows ++ [_]).map PredictionRow.id).Nodup
    rw [List.map_append, List.nodup_append]
    refine ⟨hnd, List.nodup_singleton _, ?_⟩
    intro x hx hx'
    simp only [List.map_cons, List.map_nil, List.mem_singleton] at hx'
    obtain ⟨r, hr, hxr⟩ := List.mem_map.mp hx
    have := hb r hr
    omega
  · intro r hr haud
    simp only [recordPrediction, List.mem_append, List.mem_singleton] at hr
    rcases hr with h | h
    · exact hsc r h haud
    · rw [h] at haud
      simp at haud

theorem applyAuditorOp_ledgerInv (l : Ledger) (op : AuditorOp) (h : LedgerInv l) :
    LedgerInv (applyAuditorOp l op) := by
  cases op with
  | record now inp => exact recordPrediction_ledgerInv l now inp h
  | runCycle now price =>
    unfold applyAuditorOp runAuditCycle auditTimeframe
    exact foldl_preserve LedgerInv _ (auditStep_ledgerInv _ _) _ _
      (foldl_preserve LedgerInv _ (auditStep_ledgerInv _ _) _ _
        (foldl_preserve LedgerInv _ (auditStep_ledgerInv _ _) _ _ h))

theorem applyAuditorOps_ledgerInv (l : Ledger) (ops : List AuditorOp)
    (h : LedgerInv l) : LedgerInv (applyAuditorOps l ops) :=
  foldl_preserve LedgerInv _ applyAuditorOp_ledgerInv ops l h

theorem emptyLedger_inv : LedgerInv emptyLedger := by
  refine ⟨⟨?_, ?_⟩, ?_⟩ <;> simp [emptyLedger, IdInv, ScoreInv]

/-- C6: starting from a freshly initialized ledger, after every sequence of
auditor operations (prediction inserts and audit cycles), every row with
`audited = true` has all three of `success_score_1h`, `success_score_4h`,
`success_score_12h` non-null: the auditor marks a row audited only after
verifying all three scores are present. -/
theorem audited_rows_have_scores (ops : List AuditorOp) (r : PredictionRow)
    (hr : r ∈ (applyAuditorOps emptyLedger ops).rows) (ha : r.audited = true) :
    r.success_score_1h.isSome = true ∧ r.success_score_4h.isSome = true ∧
      r.success_score_12h.isSome = true :=
  (applyAuditorOps_ledgerInv emptyLedger ops emptyLedger_inv).2 r hr ha

theorem calculateSuccessScore_hold (p : PredictionRow) (actual : ℚ)
    (hs : p.signal = "HOLD") : calculateSuccessScore p actual = 0 := by
  simp only [calculateSuccessScore]
  have hsig : signalScoreRaw p.signal
      ((actual - p.price_at_prediction) / p.price_at_prediction * 100) = 0 := by
    unfold signalScoreRaw
    rw [hs, if_neg (by decide : ¬ ("HOLD" : String) = "BUY"),
      if_neg (by decide : ¬ ("HOLD" : String) = "SELL")]
  rw [hsig]
  have hpb : patternBonus (lowerChars (p.predicted_outcome.getD "")) p.signal
      ((actual - p.price_at_prediction) / p.price_at_prediction * 100) 0 = 0 := by
    unfold patternBonus
    rw [hs]
    simp [show ("HOLD" : String) ≠ "SELL" by decide,
      show ("HOLD" : String) ≠ "BUY" by decide]
  rw [hpb, zero_mul]
  norm_num [round3, pyRoundInt]

def sampleInput : PredictionInput :=
  { predicted_bias := "b", predicted_outcome := none, confidence := 1,
    market_regime := "BULL", archetype := "NEUTRAL", signal := "HOLD",
    price_at_prediction := 100 }

/-- The row of `sampleInput` after a full audit cycle at t = 43201 s. -/
def sampleRowFinal : PredictionRow :=
  { id := 1, timestamp := 0, predicted_bias := "b", predicted_outcome := none,
    confidence := 1, market_regime := "BULL", archetype := "NEUTRAL",
    signal := "HOLD", price_at_prediction := 100,
    actual_price_1h := some 100, actual_price_4h := some 100,
    actual_price_12h := some 100, success_score_1h := some 0,
    success_score_4h := some 0, success_score_12h := some 0, audited := true }

theorem sampleOps_eval :
    applyAuditorOps emptyLedger
        [AuditorOp.record 0 sampleInput, AuditorOp.runCycle 43201 100] =
      { rows := [sampleRowFinal], next_id := 2 } := by
  simp only [applyAuditorOps, List.foldl, applyAuditorOp]
  norm_num [recordPrediction, emptyLedger, sampleInput, runAuditCycle, auditTimeframe,
    getUnauditedPredictions, PredictionRow.scoreAt, List.filter, List.mergeSort_singleton,
    auditStep, updateActualPrice, updateSuccessScore, markAudited, isFullyAudited,
    List.find?, PredictionRow.withActual, PredictionRow.withScore,
    calculateSuccessScore_hold, sampleRowFinal]

/-- Witness for `audited_rows_have_scores`: after recording one prediction and
running one full audit cycle 12 h later, the resulting row is audited and the
theorem yields its three non-null scores. -/
theorem audited_rows_have_scores_witness :
    sampleRowFinal.audited = true ∧
    (sampleRowFinal.success_score_1h.isSome = true ∧
      sampleRowFinal.success_score_4h.isSome = true ∧
      sampleRowFinal.success_score_12h.isSome = true) :=
  ⟨rfl, audited_rows_have_scores
    [AuditorOp.record 0 sampleInput, AuditorOp.runCycle 43201 100] sampleRowFinal
    (by rw [sampleOps_eval]; exact List.mem_singleton.mpr rfl) rfl⟩

end AlphaWeex
